import Mathlib

/-
Shallow embedding of the cliware middleware-composition library
(src/cliware.go). Go side effects are made explicit: a Handler threads a
state value St, a RequestProcessor returns the possibly mutated request
together with its error, and mutation of a Chain is explicit state passing
(each operation returns the new Chain value).
-/

namespace Cliware

section Model

universe u

variable (C R P E St : Type)

/-- A Handler takes a context and a request and, threading the effect
state, produces an optional response and an optional error.
Mirrors cliware.Handler.Handle. -/
def Handler : Type :=
  C → R → St → (Option P × Option E) × St

/-- MiddlewareFunc is the function form of the Middleware interface. -/
def MiddlewareFunc : Type :=
  Handler C R P E St → Handler C R P E St

/-- A RequestProcessor receives the request by pointer in Go; here the
in-place mutation is explicit: it returns the updated request and an
optional error. -/
def RequestProcessor : Type :=
  R → R × Option E

/-- A ResponseProcessor inspects the response and error and returns an
optional replacement error. -/
def ResponseProcessor : Type :=
  Option P → Option E → Option E

/-- A ContextProcessor derives a replacement context. -/
def ContextProcessor : Type :=
  C → C

end Model

section Adapters

variable {C R P E St : Type}

/-- Exec of RequestProcessor, from src/cliware.go lines 63-73: run the
processor on the request; on a non-nil error return (nil, err) without
calling the next handler; otherwise call the next handler on the
(possibly updated) request and return its result unchanged. -/
def RequestProcessor.Exec (rp : RequestProcessor R E) (handler : Handler C R P E St) :
    Handler C R P E St :=
  fun ctx req s =>
    let (req2, err) := rp req
    match err with
    | some e => ((none, some e), s)
    | none => handler ctx req2 s

/-- Exec of ResponseProcessor, from src/cliware.go lines 87-96: always
call the next handler first, feed its response and error to the
processor; a non-nil new error replaces the old one (response kept),
otherwise the original pair is returned unchanged. -/
def ResponseProcessor.Exec (rp : ResponseProcessor P E) (handler : Handler C R P E St) :
    Handler C R P E St :=
  fun ctx req s =>
    let ((resp, err), s2) := handler ctx req s
    match rp resp err with
    | some newErr => ((resp, some newErr), s2)
    | none => ((resp, err), s2)

/-- Exec of ContextProcessor, from src/cliware.go lines 104-109: replace
the context by applying the processor, then call the next handler. -/
def ContextProcessor.Exec (cp : ContextProcessor C) (handler : Handler C R P E St) :
    Handler C R P E St :=
  fun ctx req s =>
    handler (cp ctx) req s

end Adapters

/-- The Middleware values this library builds: the three adapter forms,
a raw function middleware, and a chain (own middlewares plus optional
parent middleware), mirroring the types of src/cliware.go. -/
inductive Middleware (C R P E St : Type) : Type where
  | middlewareFunc (f : MiddlewareFunc C R P E St)
  | requestProcessor (f : RequestProcessor R E)
  | responseProcessor (f : ResponseProcessor P E)
  | contextProcessor (f : ContextProcessor C)
  | chain (middlewares : List (Middleware C R P E St))
      (parent : Option (Middleware C R P E St))

section Exec

variable {C R P E St : Type}

mutual

/-- Exec dispatch for Middleware values. The chain case mirrors
Chain.Exec in src/cliware.go lines 160-176: compose own middlewares from
last to first around the handler, then wrap with the parent if present. -/
def Middleware.Exec : Middleware C R P E St → Handler C R P E St → Handler C R P E St
  | .middlewareFunc f, next => f next
  | .requestProcessor f, next => RequestProcessor.Exec f next
  | .responseProcessor f, next => ResponseProcessor.Exec f next
  | .contextProcessor f, next => ContextProcessor.Exec f next
  | .chain ms none, next => Middleware.execList ms next
  | .chain ms (some par), next => Middleware.Exec par (Middleware.execList ms next)

/-- The composition loop of Chain.Exec: iterating from the last
middleware to the first, wrapping at each step, is the right fold. -/
def Middleware.execList : List (Middleware C R P E St) → Handler C R P E St → Handler C R P E St
  | [], next => next
  | m :: rest, next => Middleware.Exec m (Middleware.execList rest next)

end

end Exec

/-- A Chain holds its own ordered middleware sequence and an optional
parent middleware, mirroring the Chain struct of src/cliware.go. -/
structure Chain (C R P E St : Type) : Type where
  middlewares : List (Middleware C R P E St)
  parent : Option (Middleware C R P E St)

section ChainOps

variable {C R P E St : Type}

/-- NewChain builds a chain with the given middlewares and no parent. -/
def NewChain (middlewares : List (Middleware C R P E St)) : Chain C R P E St :=
  ⟨middlewares, none⟩

/-- Copy builds a new chain with a copy of the middleware slice (the
element values are shared) and no parent. -/
def Chain.Copy (c : Chain C R P E St) : Chain C R P E St :=
  ⟨c.middlewares, none⟩

/-- ChildChain builds a new chain with the receiver as parent. -/
def Chain.ChildChain (c : Chain C R P E St) (middlewares : List (Middleware C R P E St)) :
    Chain C R P E St :=
  ⟨middlewares, some (.chain c.middlewares c.parent)⟩

/-- Middlewares returns the own middleware sequence of the chain. -/
def Chain.Middlewares (c : Chain C R P E St) : List (Middleware C R P E St) :=
  c.middlewares

/-- Parent returns the parent middleware of the chain. -/
def Chain.Parent (c : Chain C R P E St) : Option (Middleware C R P E St) :=
  c.parent

/-- Chain.Exec, from src/cliware.go lines 160-176: fold the own
middlewares from last-registered to first-registered around the handler,
then, if a parent exists, wrap the result with the parent. -/
def Chain.Exec (c : Chain C R P E St) (handler : Handler C R P E St) : Handler C R P E St :=
  let finalHandler := Middleware.execList c.middlewares handler
  match c.parent with
  | some p => Middleware.Exec p finalHandler
  | none => finalHandler

/-- Chain.Exec with the mutable receiver and the handler effect state
threaded explicitly: the source body only reads c.middlewares and
c.parent and never invokes Handle, so the translation returns the
receiver and the state as they came in alongside the composed handler. -/
def Chain.ExecS {σ : Type} (c : Chain C R P E St) (handler : Handler C R P E St) (s : σ) :
    Handler C R P E St × Chain C R P E St × σ :=
  let finalHandler := Middleware.execList c.middlewares handler
  match c.parent with
  | some p => (Middleware.Exec p finalHandler, c, s)
  | none => (finalHandler, c, s)

/-- Use appends one middleware to the own sequence of the chain. -/
def Chain.Use (c : Chain C R P E St) (m : Middleware C R P E St) : Chain C R P E St :=
  ⟨c.middlewares ++ [m], c.parent⟩

/-- UseAll appends all given middlewares to the own sequence of the chain. -/
def Chain.UseAll (c : Chain C R P E St) (ms : List (Middleware C R P E St)) : Chain C R P E St :=
  ⟨c.middlewares ++ ms, c.parent⟩

/-- UseFunc appends a function middleware. -/
def Chain.UseFunc (c : Chain C R P E St) (f : MiddlewareFunc C R P E St) : Chain C R P E St :=
  ⟨c.middlewares ++ [.middlewareFunc f], c.parent⟩

/-- UseRequest appends a RequestProcessor middleware. -/
def Chain.UseRequest (c : Chain C R P E St) (f : RequestProcessor R E) : Chain C R P E St :=
  c.Use (.requestProcessor f)

/-- UseResponse appends a ResponseProcessor middleware. -/
def Chain.UseResponse (c : Chain C R P E St) (f : ResponseProcessor P E) : Chain C R P E St :=
  c.Use (.responseProcessor f)

end ChainOps

/-- URL components of an http.Request, the fields the library touches. -/
structure URL : Type where
  scheme : String
  host : String
  path : String
deriving DecidableEq

/-- The fields of http.Request that EmptyRequest sets. Nilable Go fields
(URL pointer, header map, body stream) are Options; the body stream is a
byte list. -/
structure HttpRequest : Type where
  method : String
  url : Option URL
  host : String
  protoMajor : Nat
  protoMinor : Nat
  proto : String
  header : Option (List (String × List String))
  body : Option (List UInt8)

/-- EmptyRequest, from src/cliware.go lines 208-220: GET method, fresh
empty URL, empty host, protocol HTTP/1.1, fresh empty header map, and a
reader over an empty byte buffer. -/
def EmptyRequest : HttpRequest :=
  { method := "GET"
    url := some { scheme := "", host := "", path := "" }
    host := ""
    protoMajor := 1
    protoMinor := 1
    proto := "HTTP/1.1"
    header := some []
    body := some [] }

/-- Context keys compare in Go by dynamic type and value. clientKeyOf
models values of the unexported clientKeyType of the library (a string
underneath), which code outside the package cannot construct;
externalKey models keys of every other dynamic type. Distinct
constructors never compare equal, mirroring interface equality across
distinct types. -/
inductive CtxKey : Type where
  | clientKeyOf : String → CtxKey
  | externalKey : String → CtxKey
deriving DecidableEq

/-- The private key of the library, from the package-cliware segment of
src/example_responseprocessor_test.go: a clientKeyType value reading
"client". -/
def clientKey : CtxKey := .clientKeyOf "client"

/-- Context values are Go interface values: a stored http.Client
pointer, or a value of any other dynamic type (for which the type
assertion of GetClient fails). -/
inductive CtxVal (Client : Type) : Type where
  | clientVal : Client → CtxVal Client
  | externalVal : String → CtxVal Client

/-- An execution context as a chain of key/value attachments, most
recent first, as built by context.WithValue. -/
abbrev Context (Client : Type) : Type :=
  List (CtxKey × CtxVal Client)

section ClientContext

variable {Client : Type}

/-- The empty background context. -/
def Context.background : Context Client := []

/-- Attach one key/value pair to a context, deriving a new context. -/
def Context.withValue (ctx : Context Client) (k : CtxKey) (v : CtxVal Client) :
    Context Client :=
  (k, v) :: ctx

/-- Look up the most recent value attached under a key. -/
def Context.valueOf : Context Client → CtxKey → Option (CtxVal Client)
  | [], _ => none
  | (k, v) :: rest, q => if k = q then some v else Context.valueOf rest q

/-- SetClient, from the package-cliware segment of
src/example_responseprocessor_test.go: derive a new context carrying the
client under the private clientKey via context.WithValue. -/
def SetClient (ctx : Context Client) (cl : Client) : Context Client :=
  ctx.withValue clientKey (.clientVal cl)

/-- GetClient, from the package-cliware segment of
src/example_responseprocessor_test.go: look up the value under the
private clientKey; when nothing is stored return nil, when the type
assertion to an http.Client pointer succeeds return the client, and
otherwise return nil. -/
def GetClient (ctx : Context Client) : Option Client :=
  match ctx.valueOf clientKey with
  | none => none
  | some (.clientVal c) => some c
  | some (.externalVal _) => none

end ClientContext

section Theorems

variable {C R P E St : Type}

/-- Claim C1: for a Chain with no parent holding middlewares in
registration order, Exec equals the nested composition of the
middlewares around the terminal handler, with the first-registered
middleware outermost and the last-registered innermost. -/
theorem chain_exec_onion_order (ms : List (Middleware C R P E St)) (h : Handler C R P E St) :
    Chain.Exec ⟨ms, none⟩ h = ms.foldr (fun m k => Middleware.Exec m k) h
    ∧ ∀ m : Middleware C R P E St,
        Chain.Exec ⟨m :: ms, none⟩ h = Middleware.Exec m (Chain.Exec ⟨ms, none⟩ h) := by
  constructor
  · show Middleware.execList ms h = _
    induction ms with
    | nil => rfl
    | cons m rest ih =>
        rw [List.foldr_cons, ← ih]
        rfl
  · intro m
    rfl

/-- Claim C2: for a Chain with a parent, Exec equals the parent applied
to the composition of the own middlewares around the terminal handler,
so the parent wraps outermost. -/
theorem chain_exec_parent_outermost (ms : List (Middleware C R P E St))
    (p : Middleware C R P E St) (h : Handler C R P E St) :
    Chain.Exec ⟨ms, some p⟩ h = Middleware.Exec p (Chain.Exec ⟨ms, none⟩ h) := rfl

/-- Claim C9: a Chain built with no middlewares and no parent is the
identity middleware: Exec returns the terminal handler unchanged. -/
theorem new_chain_empty_identity (h : Handler C R P E St) :
    Chain.Exec (NewChain []) h = h := rfl

/-- Claim C3: a RequestProcessor whose function fails short-circuits
with (nil, the very error) leaving the handler state untouched, so next
never runs; on success it calls next on the processed request and
returns its result unchanged. -/
theorem request_processor_error_short_circuits (f : RequestProcessor R E)
    (next : Handler C R P E St) (ctx : C) (req : R) (s : St) :
    (∀ e : E, (f req).2 = some e →
        RequestProcessor.Exec f next ctx req s = ((none, some e), s))
    ∧ ((f req).2 = none →
        RequestProcessor.Exec f next ctx req s = next ctx (f req).1 s) := by
  rcases hfr : f req with ⟨req2, err⟩
  constructor
  · intro e he
    simp at he
    subst he
    simp [RequestProcessor.Exec, hfr]
  · intro he
    simp at he
    subst he
    simp [RequestProcessor.Exec, hfr]

/-- Witness for C3: a failing processor yields exactly its error with
the state of a state-bumping next handler untouched, and a succeeding
processor forwards to next on the updated request. -/
theorem request_processor_error_short_circuits_witness :
    RequestProcessor.Exec (C := Nat) (P := Nat)
        (fun r : Nat => (r + 1, some 7)) (fun _ _ s => ((some 0, none), s + 1)) 0 5 3
      = ((none, some 7), 3)
    ∧ RequestProcessor.Exec (C := Nat) (P := Nat) (E := Nat)
        (fun r : Nat => (r + 1, none)) (fun _ r s => ((some r, none), s + 1)) 0 5 3
      = ((some 6, none), 4) :=
  ⟨(request_processor_error_short_circuits _ _ 0 5 3).1 7 rfl,
   (request_processor_error_short_circuits (fun r : Nat => (r + 1, none))
      (fun _ r s => ((some r, none), s + 1)) 0 5 3).2 rfl⟩

/-- Claim C4: a ResponseProcessor always runs next first (its state
effect and response always appear in the result); a non-nil new error
replaces the upstream error with the response passed through, and a nil
new error leaves the full upstream result unchanged. -/
theorem response_processor_replaces_error (f : ResponseProcessor P E)
    (next : Handler C R P E St) (ctx : C) (req : R) (s : St) :
    (∀ e : E, f (next ctx req s).1.1 (next ctx req s).1.2 = some e →
        ResponseProcessor.Exec f next ctx req s
          = (((next ctx req s).1.1, some e), (next ctx req s).2))
    ∧ (f (next ctx req s).1.1 (next ctx req s).1.2 = none →
        ResponseProcessor.Exec f next ctx req s = next ctx req s) := by
  rcases hn : next ctx req s with ⟨⟨resp, err⟩, s2⟩
  constructor
  · intro e he
    simp at he
    simp [ResponseProcessor.Exec, hn, he]
  · intro he
    simp at he
    simp [ResponseProcessor.Exec, hn, he]

/-- Witness for C4: a vetoing processor replaces the error of a failed
next while keeping its response and state effect; a nil-returning
processor leaves the failed result of next fully unchanged. -/
theorem response_processor_replaces_error_witness :
    ResponseProcessor.Exec (C := Nat) (R := Nat)
        (fun _ _ => some 9) (fun _ _ s => ((some 1, some 4), s + 1)) 0 5 3
      = ((some 1, some 9), 4)
    ∧ ResponseProcessor.Exec (C := Nat) (R := Nat)
        (fun _ _ => none) (fun _ _ s => ((some 1, some 4), s + 1)) 0 5 3
      = ((some 1, some 4), 4) :=
  ⟨(response_processor_replaces_error (fun _ _ => some 9)
      (fun _ _ s => ((some 1, some 4), s + 1)) 0 5 3).1 9 rfl,
   (response_processor_replaces_error (fun _ _ => none)
      (fun _ _ s => ((some 1, some 4), s + 1)) 0 5 3).2 rfl⟩

/-- Claim C5: a ContextProcessor always calls next with the replacement
context and the unchanged request, returning the result of next
unchanged; there is no short-circuit path. -/
theorem context_processor_always_calls_next (g : ContextProcessor C)
    (next : Handler C R P E St) (ctx : C) (req : R) (s : St) :
    ContextProcessor.Exec g next ctx req s = next (g ctx) req s := rfl

/-- Claim C6: Chain.Exec is pure composition: with receiver and handler
state threaded explicitly, it leaves the chain and the state untouched,
returns exactly the composed handler without running it, and the same
chain builds independent compositions from different terminal
handlers. -/
theorem chain_exec_pure_composition {σ : Type} (c : Chain C R P E St)
    (h1 h2 : Handler C R P E St) (s : σ) :
    (c.ExecS h1 s).2.1 = c
    ∧ (c.ExecS h1 s).2.2 = s
    ∧ (c.ExecS h1 s).1 = c.Exec h1
    ∧ ((c.ExecS h1 s).2.1.ExecS h2 s).1 = c.Exec h2 := by
  obtain ⟨ms, p⟩ := c
  cases p <;> simp [Chain.ExecS, Chain.Exec]

/-- Claim C7: Copy yields a parentless chain whose middleware sequence
equals the original elementwise (shallow copy), and Use on the copy
grows only the copy. -/
theorem chain_copy_shallow (c : Chain C R P E St) (m : Middleware C R P E St) :
    (c.Copy).Parent = none
    ∧ (c.Copy).Middlewares = c.Middlewares
    ∧ ((c.Copy).Use m).Middlewares.length = c.Middlewares.length + 1 := by
  refine ⟨rfl, rfl, ?_⟩
  simp [Chain.Copy, Chain.Middlewares, Chain.Use]

/-- Claim C8: EmptyRequest sets method GET, an empty but present URL,
empty host, protocol 1.1, an empty but present header container, and an
empty but present body stream. -/
theorem empty_request_fields :
    EmptyRequest.method = "GET"
    ∧ EmptyRequest.url = some { scheme := "", host := "", path := "" }
    ∧ EmptyRequest.host = ""
    ∧ EmptyRequest.protoMajor = 1
    ∧ EmptyRequest.protoMinor = 1
    ∧ EmptyRequest.header = some []
    ∧ EmptyRequest.body = some []
    ∧ (EmptyRequest.body.getD []).length = 0 :=
  ⟨rfl, rfl, rfl, rfl, rfl, rfl, rfl, rfl⟩

/-- Claim C10: the client accessors round-trip: GetClient after
SetClient returns exactly the client; the background context carries
none; external keys can neither overwrite the client nor be disturbed
by SetClient; and any context without the private key yields none. -/
theorem client_context_roundtrip {Client : Type} (ctx : Context Client) (cl : Client) :
    GetClient (SetClient ctx cl) = some cl
    ∧ GetClient (Context.background : Context Client) = none
    ∧ (∀ s v, GetClient (ctx.withValue (.externalKey s) v) = GetClient ctx)
    ∧ (∀ s, (SetClient ctx cl).valueOf (.externalKey s) = ctx.valueOf (.externalKey s))
    ∧ ((∀ e ∈ ctx, e.1 ≠ clientKey) → GetClient ctx = none) := by
  refine ⟨?_, rfl, ?_, ?_, ?_⟩
  · simp [GetClient, SetClient, Context.withValue, Context.valueOf]
  · intro s v
    simp [GetClient, Context.withValue, Context.valueOf, clientKey]
  · intro s
    simp [SetClient, Context.withValue, Context.valueOf, clientKey]
  · induction ctx with
    | nil => intro _; rfl
    | cons e rest ih =>
        intro hfree
        have h1 : e.1 ≠ clientKey := hfree e (List.mem_cons_self e rest)
        have h2 : ∀ x ∈ rest, x.1 ≠ clientKey :=
          fun x hx => hfree x (List.mem_cons_of_mem e hx)
        obtain ⟨k, v⟩ := e
        simp only [GetClient, Context.valueOf] at ih ⊢
        rw [if_neg h1]
        exact ih h2

/-- Witness for C10 at a context holding one unrelated external entry:
the round trip returns the set client, and before setting, GetClient
yields none. -/
theorem client_context_roundtrip_witness :
    GetClient (SetClient ([(CtxKey.externalKey "k", CtxVal.externalVal "v")] : Context Nat) 42)
      = some 42
    ∧ GetClient ([(CtxKey.externalKey "k", CtxVal.externalVal "v")] : Context Nat) = none :=
  ⟨(client_context_roundtrip _ 42).1,
   (client_context_roundtrip [(CtxKey.externalKey "k", CtxVal.externalVal "v")] 42).2.2.2.2
     (by intro e he
         rw [List.mem_singleton] at he
         subst he
         simp [clientKey])⟩

end Theorems

end Cliware
